import Mathlib

/-!
Verification of the actor-detection pipeline
(`actor_detector.py`, `pdf_builder.py`, `main.py`).

The pipeline's pure structure is embedded shallowly:

* pixel coordinates are natural numbers (all coordinates handled by the
  pipeline come from array indices, hence are nonnegative);
* the external OpenCV / EasyOCR calls (`cv2.matchTemplate` response
  locations, `cv2.HoughCircles`, `easyocr.readtext`) are oracles packaged
  in a `Detector` context structure, mirroring the `DrawIOActorDetector`
  object that holds the image and its dimensions;
* numpy 2-D slicing `a[y1:y2, x1:x2]` on nonnegative bounds yields
  `max 0 (min y2 h - min y1 h)` rows, which over `Nat` is
  `min y2 h - min y1 h` with truncated subtraction (`sliceLen`);
* `math.dist p q > t` for integer points is embedded exactly as
  `t^2 < dist2 p q` (squared Euclidean distance), avoiding floats.
-/

namespace ActorPipeline

/-- A 2-D pixel coordinate, the presumed body-center of an actor glyph. -/
structure Point where
  x : Nat
  y : Nat
deriving DecidableEq

/-- A circle in pixel coordinates, as produced by the Hough transform
(already rounded to integers, as the code does with `np.uint16(np.around ...)`). -/
structure Circle where
  cx : Nat
  cy : Nat
  r : Nat
deriving DecidableEq

/-- A rectangle `(x1, y1, x2, y2)`, the ROI-box shape the code passes around. -/
structure Rect where
  x1 : Nat
  y1 : Nat
  x2 : Nat
  y2 : Nat
deriving DecidableEq

/-- Absolute difference of naturals. -/
def adiff (a b : Nat) : Nat := max a b - min a b

/-- Squared Euclidean distance between two points.
`math.dist p q > t` on integer points holds iff `t^2 < dist2 p q`. -/
def dist2 (p q : Point) : Nat := adiff p.x q.x ^ 2 + adiff p.y q.y ^ 2

theorem adiff_comm (a b : Nat) : adiff a b = adiff b a := by
  simp [adiff, Nat.max_comm, Nat.min_comm]

theorem dist2_comm (p q : Point) : dist2 p q = dist2 q p := by
  simp [dist2, adiff_comm]

/-- The guard `all(math.dist(c, a) > t for a in acc)` used by both the
template matcher (t = 15, so `r2 = 225`) and the duplicate remover
(t = 25, so `r2 = 625`). -/
def farFromAll (r2 : Nat) (p : Point) (acc : List Point) : Bool :=
  acc.all (fun q => decide (r2 < dist2 p q))

/-- The greedy first-wins spatial suppression loop shared by
`find_actors_by_template` (radius² 225) and the near-duplicate removal in
`detect_actors` (radius² 625): a point is appended to the accumulator only
if it is farther than the radius from every previously accepted point. -/
def greedyKeep (r2 : Nat) (acc : List Point) : List Point → List Point
  | [] => acc
  | p :: ps =>
    if farFromAll r2 p acc then greedyKeep r2 (acc ++ [p]) ps
    else greedyKeep r2 acc ps

theorem farFromAll_iff (r2 : Nat) (p : Point) (acc : List Point) :
    farFromAll r2 p acc = true ↔ ∀ q ∈ acc, r2 < dist2 p q := by
  simp [farFromAll]

theorem greedyKeep_pairwise (r2 : Nat) :
    ∀ (l acc : List Point),
      acc.Pairwise (fun a b => r2 < dist2 a b) →
      (greedyKeep r2 acc l).Pairwise (fun a b => r2 < dist2 a b) := by
  intro l
  induction l with
  | nil => intro acc h; simpa [greedyKeep] using h
  | cons p t ih =>
    intro acc h
    by_cases hf : farFromAll r2 p acc = true
    · simp only [greedyKeep]
      rw [if_pos hf]
      apply ih
      rw [List.pairwise_append]
      refine ⟨h, List.pairwise_singleton _ _, ?_⟩
      intro a ha b hb
      rw [List.mem_singleton] at hb
      have hfar := (farFromAll_iff r2 p acc).mp hf a ha
      rw [hb]
      rw [dist2_comm] at hfar
      exact hfar
    · simp only [greedyKeep]
      rw [if_neg hf]
      exact ih acc h

theorem greedyKeep_mem (r2 : Nat) :
    ∀ (l acc : List Point) (q : Point),
      q ∈ greedyKeep r2 acc l → q ∈ acc ∨ q ∈ l := by
  intro l
  induction l with
  | nil => intro acc q hq; exact Or.inl (by simpa [greedyKeep] using hq)
  | cons p t ih =>
    intro acc q hq
    by_cases hf : farFromAll r2 p acc = true
    · simp only [greedyKeep] at hq
      rw [if_pos hf] at hq
      rcases ih (acc ++ [p]) q hq with h | h
      · rcases List.mem_append.mp h with h2 | h2
        · exact Or.inl h2
        · exact Or.inr (by simp [List.mem_singleton.mp h2])
      · exact Or.inr (List.mem_cons_of_mem _ h)
    · simp only [greedyKeep] at hq
      rw [if_neg hf] at hq
      rcases ih acc q hq with h | h
      · exact Or.inl h
      · exact Or.inr (List.mem_cons_of_mem _ h)

theorem greedyKeep_fix (r2 : Nat) :
    ∀ (l acc : List Point),
      (∀ a ∈ l, farFromAll r2 a acc = true) →
      l.Pairwise (fun a b => r2 < dist2 a b) →
      greedyKeep r2 acc l = acc ++ l := by
  intro l
  induction l with
  | nil => intro acc _ _; simp [greedyKeep]
  | cons p t ih =>
    intro acc hfar hpw
    simp only [greedyKeep]
    rw [if_pos (hfar p (List.mem_cons_self _ _))]
    rw [List.pairwise_cons] at hpw
    have hstep : ∀ a ∈ t, farFromAll r2 a (acc ++ [p]) = true := by
      intro a ha
      rw [farFromAll_iff]
      intro q hq
      rcases List.mem_append.mp hq with h | h
      · exact (farFromAll_iff r2 a acc).mp (hfar a (List.mem_cons_of_mem _ ha)) q h
      · rw [List.mem_singleton.mp h, dist2_comm]
        exact hpw.1 a ha
    rw [ih (acc ++ [p]) hstep hpw.2, List.append_assoc]
    rfl

theorem greedyKeep_length (r2 : Nat) :
    ∀ (l acc : List Point), (greedyKeep r2 acc l).length ≤ acc.length + l.length := by
  intro l
  induction l with
  | nil => intro acc; simp [greedyKeep]
  | cons p t ih =>
    intro acc
    by_cases hf : farFromAll r2 p acc = true
    · simp only [greedyKeep]
      rw [if_pos hf]
      have := ih (acc ++ [p])
      simp only [List.length_append, List.length_singleton] at this
      simp only [List.length_cons]
      omega
    · simp only [greedyKeep]
      rw [if_neg hf]
      have := ih acc
      simp only [List.length_cons]
      omega

/-- The five template side lengths generated by `find_actors_by_template`. -/
def template_sizes : List Nat := [40, 50, 60, 70, 80]

/-- Template matching, `find_actors_by_template`.  The correlation itself
(`cv2.matchTemplate` plus the `res >= 0.41` threshold) is external; `locs`
is its oracle: for each template size it yields the accepted match
locations in raster order.  Each location is converted to a glyph-center
coordinate by adding half the template size, and the centers are passed
through the 15 px greedy first-wins suppression, sizes in increasing
order. -/
def find_actors_by_template (locs : Nat → List Point) : List Point :=
  template_sizes.foldl
    (fun actors size =>
      greedyKeep 225 actors
        ((locs size).map (fun pt => ⟨pt.x + size / 2, pt.y + size / 2⟩)))
    []

/-- The 25 px near-duplicate removal loop of `detect_actors`
(`final_actors`). -/
def remove_near_duplicates (l : List Point) : List Point := greedyKeep 625 [] l

theorem foldl_greedyKeep_pairwise (r2 : Nat) (f : Nat → List Point) :
    ∀ (sizes : List Nat) (acc : List Point),
      acc.Pairwise (fun a b => r2 < dist2 a b) →
      (sizes.foldl (fun a s => greedyKeep r2 a (f s)) acc).Pairwise
        (fun a b => r2 < dist2 a b) := by
  intro sizes
  induction sizes with
  | nil => intro acc h; simpa using h
  | cons s t ih =>
    intro acc h
    exact ih (greedyKeep r2 acc (f s)) (greedyKeep_pairwise r2 (f s) acc h)

/-- C6: for every match-location oracle (hence for every binary mask), any
two distinct candidate points returned by `find_actors_by_template` are
strictly more than 15 px apart in Euclidean distance — the greedy
first-wins suppression only accepts a glyph-center whose distance to every
previously accepted candidate exceeds 15 px. -/
theorem C6_matcher_separation (locs : Nat → List Point) :
    (find_actors_by_template locs).Pairwise (fun a b => 225 < dist2 a b) := by
  exact foldl_greedyKeep_pairwise 225
    (fun size => (locs size).map (fun pt => ⟨pt.x + size / 2, pt.y + size / 2⟩))
    template_sizes [] List.Pairwise.nil

/-- C8: the greedy 25 px duplicate-merge step of `detect_actors` is a fixed
point on its own output: applying it a second time returns the same list. -/
theorem C8_dedup_idempotent (l : List Point) :
    remove_near_duplicates (remove_near_duplicates l) = remove_near_duplicates l := by
  have hp := greedyKeep_pairwise 625 l [] List.Pairwise.nil
  have hfix := greedyKeep_fix 625 (greedyKeep 625 [] l) []
    (fun a _ => by simp [farFromAll]) hp
  simpa [remove_near_duplicates] using hfix

/-- Length of a numpy 1-D slice `a[i:j]` of an array of length `n`, for
nonnegative bounds: `max 0 (min j n - min i n)`, which over `Nat` is the
truncated subtraction. -/
def sliceLen (n a b : Nat) : Nat := min b n - min a n

/-- String strip, as Python's `str.strip()`: remove leading and trailing
whitespace characters. -/
def isPySpace (c : Char) : Bool :=
  c = ' ' || c = '\t' || c = '\n' || c = '\r' || c = '\x0b' || c = '\x0c'

/-- Python's `str.strip()` on the underlying character list. -/
def pyStrip (s : String) : String :=
  String.mk (((s.data.dropWhile isPySpace).reverse.dropWhile isPySpace).reverse)

/-- Python's `" ".join(l)`. -/
def joinSpace : List String → String
  | [] => ""
  | [s] => s
  | s :: rest => s ++ " " ++ joinSpace rest

/-- The detection context, mirroring the `DrawIOActorDetector` object: the
image dimensions together with oracles for the three external calls.
`matchLocs size` is the raster-order list of locations where
`cv2.matchTemplate` response for the size-`size` template is `>= 0.41`;
`hough box` is the `cv2.HoughCircles` result on the blurred head-search ROI
`box` (`none` when no circles are found, circle coordinates ROI-local);
`ocr box` is the list of text spans `easyocr` reads in the caption ROI
`box`, in the order returned. -/
structure Detector where
  width : Nat
  height : Nat
  matchLocs : Nat → List Point
  hough : Rect → Option (List Circle)
  ocr : Rect → List String

/-- The head-search ROI of `verify_head_circle`: `search_height = 35` px
upward from the candidate and `search_width = 50` px centered on it,
clipped at the left/top (`max 0`) and right (`min width`) edges. -/
def headROI (E : Detector) (p : Point) : Rect :=
  ⟨p.x - 25, p.y - 35, min E.width (p.x + 25), p.y⟩

/-- Pixel count of the 2-D slice `a[y1:y2, x1:x2]` of the image
(`roi.size` in the code). -/
def roiArea (E : Detector) (r : Rect) : Nat :=
  sliceLen E.height r.y1 r.y2 * sliceLen E.width r.x1 r.x2

/-- ROI-local circles converted to absolute image coordinates
(`global_x = x1 + cx`, `global_y = y1 + cy`). -/
def absCircles (box : Rect) (cs : List Circle) : List Circle :=
  cs.map (fun c => ⟨box.x1 + c.cx, box.y1 + c.cy, c.r⟩)

/-- The geometric post-filter of `verify_head_circle`: keep circles with
`cy < y` (head strictly above the candidate) and `abs (cx - x) < 25`. -/
def headFilter (p : Point) (cs : List Circle) : List Circle :=
  cs.filter (fun c => decide (c.cy < p.y) && decide (adiff c.cx p.x < 25))

/-- Python's `min(circles, key = fun c => abs (c.cx - x))`: the fold keeps
the current best unless a strictly smaller key appears, so the first
minimum wins. -/
def bestByDx (x : Nat) (c : Circle) (cs : List Circle) : Circle :=
  cs.foldl (fun best c2 => if adiff c2.cx x < adiff best.cx x then c2 else best) c

/-- The list of geometrically admissible circles `verify_head_circle`
chooses from: the Hough result on the head-search ROI, made absolute and
post-filtered. -/
def filtCircles (E : Detector) (p : Point) : List Circle :=
  match E.hough (headROI E p) with
  | none => []
  | some cs => headFilter p (absCircles (headROI E p) cs)

/-- Head verification, `verify_head_circle`: returns the confirmation
flag, the chosen head circle (if any) and the ROI box used.  A zero-area
ROI or an empty/fully-filtered Hough result yields `(false, none, box)`;
otherwise the admissible circle whose `cx` is closest to the candidate's
`x` is chosen, first-found winning ties. -/
def verify_head_circle (E : Detector) (p : Point) : Bool × Option Circle × Rect :=
  let box := headROI E p
  if roiArea E box = 0 then (false, none, box)
  else
    match E.hough box with
    | none => (false, none, box)
    | some cs =>
      match headFilter p (absCircles box cs) with
      | [] => (false, none, box)
      | c :: rest => (true, some (bestByDx p.x c rest), box)

/-- The caption ROI of `extract_text_below`: `roi_w = 160` px centered on
the candidate's `x`, from `y + 10` down to `min height (y + 80)`
(`roi_h = 80`), clipped to the image bounds. -/
def capROI (E : Detector) (p : Point) : Rect :=
  ⟨p.x - 80, p.y + 10, min E.width (p.x + 80), min E.height (p.y + 80)⟩

/-- Caption extraction, `extract_text_below`: crop the caption ROI from the
original color image; a zero-area crop yields `("", none)`, otherwise the
OCR spans are joined with single spaces and stripped. -/
def extract_text_below (E : Detector) (p : Point) : String × Option Rect :=
  let box := capROI E p
  if roiArea E box = 0 then ("", none)
  else (pyStrip (joinSpace (E.ocr box)), some box)

/-- The per-candidate loop of `detect_actors` (`for idx, actor_pos in
enumerate(actors)`): returns the `verified` list and the `text_results`
list.  A confirmed candidate contributes `(idx+1, extracted caption)` and
is appended to `verified`; an unconfirmed one contributes `(idx+1, "")`. -/
def processCandidates (E : Detector) : Nat → List Point → List Point × List (Nat × String)
  | _, [] => ([], [])
  | i, p :: rest =>
    let tail := processCandidates E (i + 1) rest
    if (verify_head_circle E p).1 then
      (p :: tail.1, (i + 1, (extract_text_below E p).1) :: tail.2)
    else
      (tail.1, (i + 1, "") :: tail.2)

/-- The main pipeline, `detect_actors`: template matching, per-candidate
head verification and caption extraction, then the 25 px near-duplicate
removal on the verified positions.  Returns
`(final count, final positions, text_results)`. -/
def detect_actors (E : Detector) : Nat × List Point × List (Nat × String) :=
  let actors := find_actors_by_template E.matchLocs
  let vt := processCandidates E 0 actors
  let final_actors := remove_near_duplicates vt.1
  (final_actors.length, final_actors, vt.2)

/-- A small concrete detection context used to instantiate the theorems:
a 1000 by 1000 image in which the size-40 template matches at `(80, 80)`
and `(280, 80)` (glyph centers `(100, 100)` and `(300, 100)`), the Hough
transform finds one circle in the head ROI of the first center only, and
OCR reads "Bob" in the first center's caption ROI. -/
def E1 : Detector where
  width := 1000
  height := 1000
  matchLocs := fun size => if size = 40 then [⟨80, 80⟩, ⟨280, 80⟩] else []
  hough := fun box => if box = ⟨75, 65, 125, 100⟩ then some [⟨20, 10, 8⟩] else none
  ocr := fun box => if box = ⟨20, 110, 180, 180⟩ then ["Bob"] else []

theorem processCandidates_fst (E : Detector) :
    ∀ (l : List Point) (i : Nat),
      (processCandidates E i l).1 = l.filter (fun p => (verify_head_circle E p).1) := by
  intro l
  induction l with
  | nil => intro i; rfl
  | cons p t ih =>
    intro i
    simp only [processCandidates, List.filter_cons]
    by_cases hv : (verify_head_circle E p).1
    · simp [hv, ih (i + 1)]
    · simp [hv, ih (i + 1)]

theorem processCandidates_snd (E : Detector) :
    ∀ (l : List Point) (i : Nat),
      (processCandidates E i l).2 =
        (List.enumFrom (i + 1) l).map
          (fun q => (q.1,
            if (verify_head_circle E q.2).1 then (extract_text_below E q.2).1 else "")) := by
  intro l
  induction l with
  | nil => intro i; rfl
  | cons p t ih =>
    intro i
    simp only [processCandidates, List.enumFrom, List.map_cons]
    by_cases hv : (verify_head_circle E p).1
    · simp [hv, ih (i + 1)]
    · simp [hv, ih (i + 1)]

theorem detect_records_eq (E : Detector) :
    (detect_actors E).2.2 =
      (List.enumFrom 1 (find_actors_by_template E.matchLocs)).map
        (fun q => (q.1,
          if (verify_head_circle E q.2).1 then (extract_text_below E q.2).1 else "")) := by
  simpa [detect_actors] using
    processCandidates_snd E (find_actors_by_template E.matchLocs) 0

/-- C1 (corrected): the raw `(id, caption)` record list returned by
`detect_actors` is NOT built from the deduplicated confirmed candidates; it
contains one record per template-matched candidate in detection order, with
id `idx + 1`, carrying the extracted caption when head verification
confirmed the candidate and the empty caption otherwise.  The 25 px
near-duplicate removal only affects the final count and position list. -/
theorem C1_raw_records (E : Detector) :
    (detect_actors E).2.2 =
      (List.enumFrom 1 (find_actors_by_template E.matchLocs)).map
        (fun q => (q.1,
          if (verify_head_circle E q.2).1 then (extract_text_below E q.2).1 else "")) :=
  detect_records_eq E

/-- C1 counterexample: in the context `E1` only one confirmed candidate is
retained by the 25 px removal (final count 1), yet `detect_actors` returns
two records — `(2, "")` belongs to a candidate that failed head
verification, so the records are not the retained confirmed candidates
renumbered from 1 in retention order. -/
theorem C1_counterexample :
    detect_actors E1 = (1, [⟨100, 100⟩], [(1, "Bob"), (2, "")]) ∧
    ¬ (detect_actors E1).2.2.length = (detect_actors E1).1 :=
  ⟨by decide, by decide⟩

/-- C2: for every run of `detect_actors`, every position in the final
actor list is a template candidate confirmed by head verification, and the
final positions are pairwise strictly more than 25 px apart in Euclidean
distance (`dist2 > 625`). -/
theorem C2_final_invariant (E : Detector) :
    (∀ p ∈ (detect_actors E).2.1,
        p ∈ find_actors_by_template E.matchLocs ∧
          (verify_head_circle E p).1 = true) ∧
    (detect_actors E).2.1.Pairwise (fun a b => 625 < dist2 a b) := by
  have hfin : (detect_actors E).2.1 =
      greedyKeep 625 []
        (processCandidates E 0 (find_actors_by_template E.matchLocs)).1 := rfl
  constructor
  · intro p hp
    rw [hfin] at hp
    rcases greedyKeep_mem 625 _ [] p hp with h | h
    · exact absurd h (List.not_mem_nil p)
    · rw [processCandidates_fst] at h
      exact List.mem_filter.mp h
  · rw [hfin]
    exact greedyKeep_pairwise 625 _ [] List.Pairwise.nil

/-- C2 witness: in the context `E1` the point `(100, 100)` is in the final
list, is a confirmed template candidate, and the final list is pairwise
separated. -/
theorem C2_witness :
    ((⟨100, 100⟩ : Point) ∈ (detect_actors E1).2.1) ∧
    ((⟨100, 100⟩ : Point) ∈ find_actors_by_template E1.matchLocs ∧
      (verify_head_circle E1 ⟨100, 100⟩).1 = true) :=
  ⟨by decide, (C2_final_invariant E1).1 ⟨100, 100⟩ (by decide)⟩

/-- C10: `detect_actors` returns exactly one `(id, caption)` record per
template-matcher candidate (also for candidates failing head verification,
which receive the empty caption), with ids consecutive from 1 in detection
order, and the returned final count never exceeds the number of records. -/
theorem C10_records_shape (E : Detector) :
    (detect_actors E).2.2.length = (find_actors_by_template E.matchLocs).length ∧
    (detect_actors E).2.2.map Prod.fst
      = List.range' 1 (find_actors_by_template E.matchLocs).length ∧
    (∀ q ∈ List.enumFrom 1 (find_actors_by_template E.matchLocs),
        (verify_head_circle E q.2).1 = false →
          (q.1, "") ∈ (detect_actors E).2.2) ∧
    (detect_actors E).1 ≤ (detect_actors E).2.2.length := by
  refine ⟨?_, ?_, ?_, ?_⟩
  · rw [detect_records_eq, List.length_map, List.enumFrom_length]
  · rw [detect_records_eq, List.map_map]
    exact List.enumFrom_map_fst 1 _
  · intro q hq hv
    rw [detect_records_eq]
    exact List.mem_map.mpr ⟨q, hq, by simp [hv]⟩
  · have h1 : (detect_actors E).1 =
        (greedyKeep 625 []
          (processCandidates E 0 (find_actors_by_template E.matchLocs)).1).length := rfl
    have h2 := greedyKeep_length 625
      (processCandidates E 0 (find_actors_by_template E.matchLocs)).1 []
    have h3 : (processCandidates E 0 (find_actors_by_template E.matchLocs)).1.length
        ≤ (find_actors_by_template E.matchLocs).length := by
      rw [processCandidates_fst]
      exact List.length_filter_le _ _
    have h4 : (detect_actors E).2.2.length
        = (find_actors_by_template E.matchLocs).length := by
      rw [detect_records_eq, List.length_map, List.enumFrom_length]
    rw [h1, h4]
    simp only [List.length_nil] at h2
    omega

/-- C10 witness: in the context `E1` the unconfirmed candidate `(300, 100)`
contributes the record `(2, "")`, and the final count (1) does not exceed
the record count (2). -/
theorem C10_witness :
    ((2, "") ∈ (detect_actors E1).2.2) ∧
    (detect_actors E1).1 ≤ (detect_actors E1).2.2.length :=
  ⟨(C10_records_shape E1).2.2.1 (2, ⟨300, 100⟩) (by decide) (by decide),
    (C10_records_shape E1).2.2.2⟩

/-- Modelled from the spec: the caption rectangle as the claim describes
it — starting 10 px below `y`, of height 80 px (so reaching 90 px below
`y`), width 160 px centered on `x`, clipped to the image bounds.  Used
only for comparison with the rectangle the code computes. -/
def claimedCapROI (E : Detector) (p : Point) : Rect :=
  ⟨p.x - 80, p.y + 10, min E.width (p.x + 80), min E.height (p.y + 10 + 80)⟩

/-- C4 counterexample: for the head-confirmed candidate `(100, 100)` in the
context `E1` (a 1000 by 1000 image, no clipping in effect), the code crops
rows `110..180` — the bottom edge is `min height (y + 80)`, i.e. 70 rows —
while a rectangle starting 10 px below `y` with height 80 px would reach
row 190. -/
theorem C4_counterexample :
    (verify_head_circle E1 ⟨100, 100⟩).1 = true ∧
    (extract_text_below E1 ⟨100, 100⟩).2 = some (capROI E1 ⟨100, 100⟩) ∧
    capROI E1 ⟨100, 100⟩ ≠ claimedCapROI E1 ⟨100, 100⟩ :=
  ⟨by decide, by decide, by decide⟩

/-- C4 (corrected): the caption crop is the axis-aligned rectangle from
10 px below `y` down to 80 px below `y` (height at most 70 px), of width
160 px centered on `x`, clipped to the image bounds. -/
theorem C4_caption_roi (E : Detector) (p : Point) (r : Rect)
    (h : (extract_text_below E p).2 = some r) :
    r = ⟨p.x - 80, p.y + 10, min E.width (p.x + 80), min E.height (p.y + 80)⟩ := by
  simp only [extract_text_below] at h
  split at h
  · simp at h
  · simp only [Option.some.injEq] at h
    rw [← h]
    rfl

/-- C4 witness: the corrected rectangle at the concrete confirmed
candidate of `E1`. -/
theorem C4_witness :
    (extract_text_below E1 ⟨100, 100⟩).2 = some ⟨20, 110, 180, 180⟩ ∧
    (⟨20, 110, 180, 180⟩ : Rect)
      = ⟨100 - 80, 100 + 10, min E1.width (100 + 80), min E1.height (100 + 80)⟩ :=
  ⟨by decide, C4_caption_roi E1 ⟨100, 100⟩ ⟨20, 110, 180, 180⟩ (by decide)⟩

/-- C9: a head-search ROI clipped to zero area makes `verify_head_circle`
return the normal not-confirmed value `(false, none, box)`, and a caption
ROI clipped to zero area makes `extract_text_below` return the empty
caption `("", none)`; both are total functions, so no error is raised. -/
theorem C9_degenerate_roi (E : Detector) (p : Point) :
    (roiArea E (headROI E p) = 0 →
      verify_head_circle E p = (false, none, headROI E p)) ∧
    (roiArea E (capROI E p) = 0 →
      extract_text_below E p = ("", none)) := by
  constructor
  · intro h0
    simp only [verify_head_circle]
    rw [if_pos h0]
  · intro h0
    simp only [extract_text_below]
    rw [if_pos h0]

/-- C9 witness: in `E1`, a candidate on the top edge (`y = 0`) has a
zero-area head-search ROI and is not confirmed, and a candidate at
`y = 990` has a zero-area caption ROI (`y + 10 = height`) and yields the
empty caption. -/
theorem C9_witness :
    (roiArea E1 (headROI E1 ⟨50, 0⟩) = 0 ∧
      verify_head_circle E1 ⟨50, 0⟩ = (false, none, headROI E1 ⟨50, 0⟩)) ∧
    (roiArea E1 (capROI E1 ⟨50, 990⟩) = 0 ∧
      extract_text_below E1 ⟨50, 990⟩ = ("", none)) :=
  ⟨⟨by decide, (C9_degenerate_roi E1 ⟨50, 0⟩).1 (by decide)⟩,
    ⟨by decide, (C9_degenerate_roi E1 ⟨50, 990⟩).2 (by decide)⟩⟩

theorem bestByDx_le_seed (x : Nat) :
    ∀ (cs : List Circle) (c : Circle),
      adiff (bestByDx x c cs).cx x ≤ adiff c.cx x := by
  intro cs
  induction cs with
  | nil => intro c; exact Nat.le_refl _
  | cons d t ih =>
    intro c
    by_cases hlt : adiff d.cx x < adiff c.cx x
    · have hb : bestByDx x c (d :: t) = bestByDx x d t := by
        simp only [bestByDx, List.foldl_cons, if_pos hlt]
      rw [hb]
      exact Nat.le_trans (ih d) (Nat.le_of_lt hlt)
    · have hb : bestByDx x c (d :: t) = bestByDx x c t := by
        simp only [bestByDx, List.foldl_cons, if_neg hlt]
      rw [hb]
      exact ih c

theorem bestByDx_min (x : Nat) :
    ∀ (cs : List Circle) (c c2 : Circle), c2 ∈ c :: cs →
      adiff (bestByDx x c cs).cx x ≤ adiff c2.cx x := by
  intro cs
  induction cs with
  | nil =>
    intro c c2 h
    rw [List.mem_singleton] at h
    rw [h]
    exact Nat.le_refl _
  | cons d t ih =>
    intro c c2 h
    by_cases hlt : adiff d.cx x < adiff c.cx x
    · have hb : bestByDx x c (d :: t) = bestByDx x d t := by
        simp only [bestByDx, List.foldl_cons, if_pos hlt]
      rw [hb]
      rcases List.mem_cons.mp h with h1 | h1
      · rw [h1]
        exact Nat.le_trans (Nat.le_trans (bestByDx_le_seed x t d) (Nat.le_of_lt hlt))
          (Nat.le_refl _)
      · exact ih d c2 h1
    · have hb : bestByDx x c (d :: t) = bestByDx x c t := by
        simp only [bestByDx, List.foldl_cons, if_neg hlt]
      rw [hb]
      rcases List.mem_cons.mp h with h1 | h1
      · rw [h1]
        exact ih c c (List.mem_cons_self _ _)
      · rcases List.mem_cons.mp h1 with h2 | h2
        · rw [h2]
          exact Nat.le_trans (bestByDx_le_seed x t c) (Nat.le_of_not_lt hlt)
        · exact ih c c2 (List.mem_cons_of_mem _ h2)

theorem bestByDx_first (x : Nat) :
    ∀ (cs : List Circle) (c : Circle),
      (c :: cs).find? (fun c2 => adiff c2.cx x == adiff (bestByDx x c cs).cx x)
        = some (bestByDx x c cs) := by
  intro cs
  induction cs with
  | nil =>
    intro c
    simp [bestByDx, List.find?]
  | cons d t ih =>
    intro c
    by_cases hlt : adiff d.cx x < adiff c.cx x
    · have hb : bestByDx x c (d :: t) = bestByDx x d t := by
        simp only [bestByDx, List.foldl_cons, if_pos hlt]
      rw [hb]
      have hle : adiff (bestByDx x d t).cx x ≤ adiff d.cx x := bestByDx_le_seed x t d
      have hne : ¬ ((adiff c.cx x == adiff (bestByDx x d t).cx x) = true) := by
        simp only [beq_iff_eq]
        omega
      rw [@List.find?_cons_of_neg _
        (fun c2 => adiff c2.cx x == adiff (bestByDx x d t).cx x) c (d :: t) hne]
      exact ih d
    · have hb : bestByDx x c (d :: t) = bestByDx x c t := by
        simp only [bestByDx, List.foldl_cons, if_neg hlt]
      rw [hb]
      have hle : adiff (bestByDx x c t).cx x ≤ adiff c.cx x := bestByDx_le_seed x t c
      by_cases hc : (adiff c.cx x == adiff (bestByDx x c t).cx x) = true
      · have hih := ih c
        rw [@List.find?_cons_of_pos _
          (fun c2 => adiff c2.cx x == adiff (bestByDx x c t).cx x) c t hc] at hih
        rw [@List.find?_cons_of_pos _
          (fun c2 => adiff c2.cx x == adiff (bestByDx x c t).cx x) c (d :: t) hc]
        exact hih
      · have hceq : ¬ adiff c.cx x = adiff (bestByDx x c t).cx x := by
          simpa only [beq_iff_eq] using hc
        have hne2 : ¬ ((adiff d.cx x == adiff (bestByDx x c t).cx x) = true) := by
          simp only [beq_iff_eq]
          omega
        have hih := ih c
        rw [@List.find?_cons_of_neg _
          (fun c2 => adiff c2.cx x == adiff (bestByDx x c t).cx x) c t hc] at hih
        rw [@List.find?_cons_of_neg _
          (fun c2 => adiff c2.cx x == adiff (bestByDx x c t).cx x) c (d :: t) hc,
          @List.find?_cons_of_neg _
          (fun c2 => adiff c2.cx x == adiff (bestByDx x c t).cx x) d t hne2]
        exact hih

/-- C5: whenever `verify_head_circle` confirms a candidate, the returned
circle lies in the geometrically admissible list (`cy < y` and
`abs (cx - x) < 25`), its horizontal distance to the candidate's `x` is
minimal among all admissible circles, and it is the first admissible circle
attaining that distance (first-found wins ties). -/
theorem C5_head_choice (E : Detector) (p : Point) (c : Circle)
    (h : (verify_head_circle E p).2.1 = some c) :
    c ∈ filtCircles E p ∧ c.cy < p.y ∧ adiff c.cx p.x < 25 ∧
    (∀ c2 ∈ filtCircles E p, adiff c.cx p.x ≤ adiff c2.cx p.x) ∧
    (filtCircles E p).find? (fun c2 => adiff c2.cx p.x == adiff c.cx p.x)
      = some c := by
  simp only [verify_head_circle] at h
  split at h
  · simp at h
  · split at h
    · simp at h
    · split at h
      · simp at h
      · rename_i cs hh x2 c0 rest hfl
        simp only [Option.some.injEq] at h
        have hfc : filtCircles E p = c0 :: rest := by
          simp only [filtCircles, hh]
          exact hfl
        have hmemfilt : c ∈ c0 :: rest := by
          rw [← h]
          exact List.mem_of_find?_eq_some (bestByDx_first p.x rest c0)
        have hpred : (decide (c.cy < p.y) && decide (adiff c.cx p.x < 25)) = true := by
          have hmf : c ∈ headFilter p (absCircles (headROI E p) cs) := by
            rw [hfl]
            exact hmemfilt
          exact (List.mem_filter.mp hmf).2
        simp only [Bool.and_eq_true, decide_eq_true_eq] at hpred
        refine ⟨?_, hpred.1, hpred.2, ?_, ?_⟩
        · rw [hfc]
          exact hmemfilt
        · intro c2 hc2
          rw [hfc] at hc2
          rw [← h]
          exact bestByDx_min p.x rest c0 c2 hc2
        · rw [hfc, ← h]
          exact bestByDx_first p.x rest c0

/-- C5 witness: the confirmed candidate `(100, 100)` of `E1` returns the
head circle `(95, 75, 8)`, which is above the candidate and within 25 px
horizontally. -/
theorem C5_witness :
    (verify_head_circle E1 ⟨100, 100⟩).2.1 = some ⟨95, 75, 8⟩ ∧
    (⟨95, 75, 8⟩ : Circle).cy < 100 ∧ adiff (⟨95, 75, 8⟩ : Circle).cx 100 < 25 :=
  ⟨by decide,
    (C5_head_choice E1 ⟨100, 100⟩ ⟨95, 75, 8⟩ (by decide)).2.1,
    (C5_head_choice E1 ⟨100, 100⟩ ⟨95, 75, 8⟩ (by decide)).2.2.1⟩

/-- The statistics dictionary built by `filter_and_renumber_actors` in
`pdf_builder.py` (keys `total_detected`, `with_names`, `without_names`,
`filtered_list`). -/
structure Stats where
  total_detected : Nat
  with_names : Nat
  without_names : Nat
  filtered_list : List (Nat × String)
deriving DecidableEq

/-- Function `filter_and_renumber_actors` from `pdf_builder.py`: keep the `(id,
name)` pairs whose name is truthy and strips to a truthy string (Python's
`if name and name.strip()`), replacing the kept name by its stripped form;
renumber the kept pairs from 1 (`enumerate(filtered, start=1)`); return
the renumbered list together with the statistics. -/
def filter_and_renumber_actors (actors_list : List (Nat × String)) :
    List (Nat × String) × Stats :=
  let filtered := (actors_list.filter
      (fun q => !(q.2 == "") && !(pyStrip q.2 == ""))).map (fun q => (q.1, pyStrip q.2))
  let renumbered := (List.enumFrom 1 filtered).map (fun q => (q.1, q.2.2))
  (renumbered,
    ⟨actors_list.length, filtered.length, actors_list.length - filtered.length,
      renumbered⟩)

/-- C3: on the input `[(1, "Alice"), (2, ""), (3, "  "), (4, "Bob")]` the
filter-and-renumber operation returns `[(1, "Alice"), (2, "Bob")]` with
statistics `total_detected = 4`, `with_names = 2`, `without_names = 2`,
and the final count (length of the filtered, renumbered list) is 2. -/
theorem C3_filter_example :
    filter_and_renumber_actors [(1, "Alice"), (2, ""), (3, "  "), (4, "Bob")] =
      ([(1, "Alice"), (2, "Bob")], ⟨4, 2, 2, [(1, "Alice"), (2, "Bob")]⟩) ∧
    (filter_and_renumber_actors
        [(1, "Alice"), (2, ""), (3, "  "), (4, "Bob")]).1.length = 2 :=
  ⟨by decide, by decide⟩

/-- The binarization core of `preprocess`, on a single-channel image
flattened to its pixel list: invert when the mean intensity exceeds 127
(`np.mean(gray) > 127`, i.e. exactly `127 * n < sum` over the rationals),
then apply `cv2.threshold(gray, 50, 255, THRESH_BINARY)`, which maps a
pixel to 255 when its value strictly exceeds 50 and to 0 otherwise.  The
preceding BGR-to-gray conversion is external and the identity in intent on
an already single-channel mask. -/
def preprocess (gray : List Nat) : List Nat :=
  let g := if 127 * gray.length < gray.sum then gray.map (fun v => 255 - v) else gray
  g.map (fun v => if 50 < v then 255 else 0)

theorem threshold_fixed (g : List Nat) (hbin : ∀ v ∈ g, v = 0 ∨ v = 255) :
    g.map (fun v => if 50 < v then 255 else 0) = g := by
  induction g with
  | nil => rfl
  | cons v t ih =>
    have ht := ih (fun u hu => hbin u (List.mem_cons_of_mem _ hu))
    simp only [List.map_cons, ht]
    rcases hbin v (List.mem_cons_self _ _) with h | h
    · rw [h]
      norm_num
    · rw [h]
      norm_num

/-- C7: a single-channel mask whose pixels all lie in `{0, 255}` and whose
polarity is already ink-bright — formalized by the code's own polarity
test, mean intensity not exceeding 127, i.e. `sum ≤ 127 * length` — is a
fixed point of the binarization step: no inversion happens and the
threshold at 50 maps 0 to 0 and 255 to 255. -/
theorem C7_binarize_idempotent (gray : List Nat)
    (hbin : ∀ v ∈ gray, v = 0 ∨ v = 255)
    (hpol : gray.sum ≤ 127 * gray.length) :
    preprocess gray = gray := by
  simp only [preprocess]
  rw [if_neg (Nat.not_lt.mpr hpol)]
  exact threshold_fixed gray hbin

/-- C7 witness: the binary ink-bright mask `[0, 0, 0, 255]` (mean 63.75)
is unchanged by the binarization step. -/
theorem C7_witness :
    [0, 0, 0, 255].sum ≤ 127 * [0, 0, 0, 255].length ∧
    preprocess [0, 0, 0, 255] = [0, 0, 0, 255] :=
  ⟨by decide, C7_binarize_idempotent [0, 0, 0, 255] (by decide) (by decide)⟩

end ActorPipeline
